import Mathlib

set_option maxRecDepth 100000

/-!
# Verification of the `measure_ai_proficiency` scoring engine

A shallow embedding of `src/measure_ai_proficiency/scanner.py` and
`src/measure_ai_proficiency/config.py` (the module actually imported by the
scanner), together with proofs about the level-gating algorithm, the coverage
computation, the quality evaluator, the cross-reference extractor and the
overall score.

Modelling conventions:
* The scanned filesystem is a snapshot `FS`: a list of (relative path, byte
  size) pairs for regular files, a list of existing directories, and a content
  oracle for reading instruction files.  Paths are `/`-separated relative
  strings, as the scanner works with paths relative to the resolved repo root.
* Python floats are modelled by `ℚ` (all arithmetic in the engine is exact at
  the magnitudes involved).
* `fnmatch.fnmatch` is modelled for the metacharacters `*` and `?` with POSIX
  `normcase` (the identity); the shipped pattern tables use only `*`.
* `item.parts` of a matched file is modelled by the components of its path
  relative to the repo root (i.e. the absolute prefix of the scan root is
  assumed free of excluded directory names).
* Python `re` matching is hand-compiled, per regex, into character scanners
  with `finditer` semantics (leftmost match, greedy with the backtracking each
  concrete pattern admits, non-overlapping continuation).
-/

/-! ## Character and string helpers -/

/-- Backtick and apostrophe characters (used as literal delimiters by the
regexes in the scanner). -/
def btick : Char := Char.ofNat 96

def apostrophe : Char := Char.ofNat 39

/-- Python `\s` (ASCII whitespace as used by the scanner's inputs). -/
def is_ws (c : Char) : Bool :=
  c = ' ' ∨ c = '\t' ∨ c = '\n' ∨ c = '\r' ∨ c = Char.ofNat 11 ∨ c = Char.ofNat 12

/-- Python `\w`: alphanumeric or underscore. -/
def is_word_char (c : Char) : Bool := c.isAlphanum ∨ c = '_'

/-- Python substring test `needle in hay` (contiguous substring). -/
def str_has_sub (hay needle : String) : Bool := go hay.data
where
  go : List Char → Bool
    | [] => needle.data.isPrefixOf []
    | c :: cs => needle.data.isPrefixOf (c :: cs) || go cs

/-- `fnmatch`-style glob matching of a pattern (supporting `*` and `?`)
against a string; `*` matches any run of characters, including `/`, exactly
as `fnmatch.translate` does.  Written with explicit fuel (every step shortens
the pattern or the string, so `p.length + s.length` suffices) to keep the
recursion structural. -/
def glob_match_fuel : Nat → List Char → List Char → Bool
  | _, [], s => s.isEmpty
  | 0, _ :: _, _ => false
  | f + 1, p :: ps, s =>
    if p = '*' then
      glob_match_fuel f ps s ||
        (match s with
         | [] => false
         | _ :: t => glob_match_fuel f (p :: ps) t)
    else
      match s with
      | [] => false
      | c :: t => (p = '?' || p = c) && glob_match_fuel f ps t

def glob_match (p s : List Char) : Bool := glob_match_fuel (p.length + s.length) p s

/-- `fnmatch.fnmatch(name, pattern)` on POSIX. -/
def fnmatch (name pattern : String) : Bool := glob_match pattern.data name.data


/-- Python `str.split(sep)` for a single-character separator (structural, so
it reduces in the kernel, unlike the position-based splitting of `String`). -/
def split_char_go (sep : Char) : List Char → List Char → List String
  | [], acc => [String.mk acc.reverse]
  | c :: t, acc =>
    if c = sep then String.mk acc.reverse :: split_char_go sep t []
    else split_char_go sep t (c :: acc)

def split_char (sep : Char) (s : String) : List String := split_char_go sep s.data []

/-- Join path components with `/`. -/
def join_chars : List (List Char) → List Char
  | [] => []
  | [x] => x
  | x :: y :: t => x ++ '/' :: join_chars (y :: t)

/-! ## Filesystem snapshot -/

/-- A snapshot of the scanned repository: regular files with byte sizes,
existing directories, and a reading oracle (`none` models an unreadable
file). -/
structure FS where
  files : List (String × Nat)
  dirs : List String
  contents : String → Option String

/-- Result of a successful `Path.stat()`: size in bytes and a modification
timestamp. -/
structure StatInfo where
  size : Nat
  mtime : Nat
deriving DecidableEq

def is_file (fs : FS) (p : String) : Bool := (fs.files.lookup p).isSome

def is_dir (fs : FS) (p : String) : Bool := fs.dirs.contains p

/-- `Path.exists()`: true for a regular file or a directory. -/
def path_exists (fs : FS) (p : String) : Bool := is_file fs p || is_dir fs p

def file_size (fs : FS) (p : String) : Nat := (fs.files.lookup p).getD 0

/-- The stat oracle consistent with the snapshot (the modification time is
not part of the snapshot and is reported as 0; no property depends on it). -/
def stat_of (fs : FS) : String → Option StatInfo :=
  fun p => (fs.files.lookup p).map (fun sz => ⟨sz, 0⟩)

/-! ## Pattern matcher (`_find_matches`, `_glob_search`, `_directory_exists`) -/

/-- Directories excluded from recursive scanning (`_glob_search`). -/
def exclude_dirs : List String :=
  ["node_modules", "venv", ".venv", "env", ".env",
   "dist", "build", "__pycache__", ".git", ".svn",
   "vendor", "target", "out", ".next", ".nuxt",
   "coverage", ".pytest_cache", ".tox", "eggs",
   ".mypy_cache", ".ruff_cache", "site-packages"]

def join_path (parts : List String) : String := String.mk (join_chars (parts.map String.data))

/-- `_glob_search(base_dir, pattern)`: every regular file strictly below
`base` (none of whose path components is an excluded directory name) whose
repo-relative path fnmatches `pattern`. -/
def glob_search (fs : FS) (base : List String) (pattern : String) : List String :=
  if base ≠ [] ∧ ¬ path_exists fs (join_path base) then []
  else
    fs.files.filterMap fun f =>
      let parts := split_char '/' f.1
      if base.isPrefixOf parts ∧ base.length < parts.length ∧
          ¬ parts.any (fun seg => exclude_dirs.contains seg) ∧
          fnmatch f.1 pattern
      then some f.1 else none

def has_star (s : String) : Bool := s.data.contains '*'

/-- The descent loop of `_find_matches` for a wildcard pattern: walk the
literal prefix components, checking existence at each step, then glob the
remaining suffix from the reached base directory. -/
def find_matches_go (fs : FS) : List String → List String → List String
  | _, [] => []
  | base, part :: rest =>
    if has_star part then glob_search fs base (join_path (part :: rest))
    else
      let base2 := base ++ [part]
      if path_exists fs (join_path base2) then find_matches_go fs base2 rest else []

/-- `_find_matches(pattern)`. -/
def find_matches (fs : FS) (pattern : String) : List String :=
  if has_star pattern then find_matches_go fs [] (split_char '/' pattern)
  else if is_file fs pattern then [pattern] else []

/-- `_directory_exists(pattern)`: a plain existence + is-directory test on the
literal pattern (the per-instance cache is a pure optimisation). -/
def directory_exists (fs : FS) (pattern : String) : Bool := is_dir fs pattern

/-! ## File matches and level scores -/

/-- `FileMatch`. -/
structure FileMatch where
  path : String
  pattern : String
  level : Nat
  size_bytes : Nat
  last_modified : Option Nat
deriving DecidableEq

/-- `FileMatch.is_substantive`: more than 100 bytes. -/
def FileMatch.is_substantive (f : FileMatch) : Bool := f.size_bytes > 100

/-- `_create_file_match`: on a failed stat the match is still produced, with
the dataclass defaults (`size_bytes = 0`, `last_modified = None`). -/
def create_file_match (stat : String → Option StatInfo)
    (path pattern : String) (level : Nat) : FileMatch :=
  match stat path with
  | some st => ⟨path, pattern, level, st.size, some st.mtime⟩
  | none => ⟨path, pattern, level, 0, none⟩

/-- `LevelConfig` (from `config.py`). -/
structure LevelConfig where
  name : String
  description : String
  file_patterns : List String
  directory_patterns : List String
  weight : ℚ

/-- `LevelScore`. -/
structure LevelScore where
  level : Nat
  name : String
  description : String
  matched_files : List FileMatch
  matched_directories : List String
  total_patterns : Nat
  coverage_percent : ℚ
deriving DecidableEq

def LevelScore.file_count (s : LevelScore) : Nat := s.matched_files.length

def LevelScore.substantive_file_count (s : LevelScore) : Nat :=
  s.matched_files.countP (fun f => f.is_substantive)

/-- The fold over one file pattern's matches (`for match_path in matches`):
appends one `FileMatch` per concrete match and marks the pattern satisfied
when it matched at least once. -/
def file_pattern_step (fs : FS) (stat : String → Option StatInfo) (level : Nat)
    (acc : List FileMatch × Finset String) (p : String) :
    List FileMatch × Finset String :=
  let ms := find_matches fs p
  (acc.1 ++ ms.map (fun m => create_file_match stat m p level),
   ms.foldl (fun s _ => insert p s) acc.2)

/-- The fold over directory patterns. -/
def dir_pattern_step (fs : FS)
    (acc : List String × Finset String) (p : String) :
    List String × Finset String :=
  if directory_exists fs p then (acc.1 ++ [p], insert p acc.2) else acc

/-- `_scan_level(level_num, config)`. -/
def scan_level (fs : FS) (stat : String → Option StatInfo)
    (level_num : Nat) (config : LevelConfig) : LevelScore :=
  let all_patterns := (config.file_patterns ++ config.directory_patterns).toFinset
  let total := all_patterns.card
  let fm := config.file_patterns.foldl (file_pattern_step fs stat level_num) ([], ∅)
  let dm := config.directory_patterns.foldl (dir_pattern_step fs) ([], fm.2)
  let coverage : ℚ := if total > 0 then (dm.2.card : ℚ) / (total : ℚ) * 100 else 0
  { level := level_num
    name := config.name
    description := config.description
    matched_files := fm.1
    matched_directories := dm.1
    total_patterns := total
    coverage_percent := coverage }

/-- Whether a pattern of a level is satisfied: as a file pattern it produced
at least one match, or as a directory pattern the directory exists. -/
def pattern_satisfied (fs : FS) (lc : LevelConfig) (p : String) : Bool :=
  (decide (p ∈ lc.file_patterns) && !(find_matches fs p).isEmpty)
  || (decide (p ∈ lc.directory_patterns) && directory_exists fs p)

/-- The set of declared patterns of a level that are satisfied. -/
def satisfied_patterns (fs : FS) (lc : LevelConfig) : Finset String :=
  (lc.file_patterns ++ lc.directory_patterns).toFinset.filter
    (fun p => pattern_satisfied fs lc p = true)

/-! ## The shipped rule table (`measure_ai_proficiency/config.py`) -/

/-- `LEVEL_1_PATTERNS`. -/
def LEVEL_1_PATTERNS : LevelConfig :=
  { name := "Level 1: Basic Instructions"
    description := "Basic context files exist with minimal project information"
    file_patterns :=
      ["CLAUDE.md",
       "AGENTS.md",
       ".github/copilot-instructions.md",
       ".github/AGENTS.md",
       ".cursorrules",
       "README.md"]
    directory_patterns := []
    weight := 1 }

/-- `LEVEL_2_PATTERNS`. -/
def LEVEL_2_PATTERNS : LevelConfig :=
  { name := "Level 2: Comprehensive Context"
    description := "Detailed instruction files covering architecture, conventions, and patterns"
    file_patterns :=
      [".github/instructions/*.instructions.md",
       ".github/*.md",
       ".cursor/rules/*.md",
       ".cursor/rules/*.mdc",
       ".cursor/*.md",
       ".vscode/*.md",
       ".codex/*.md",
       "ARCHITECTURE.md",
       "docs/ARCHITECTURE.md",
       "*/docs/ARCHITECTURE.md",
       "docs/architecture/*.md",
       "spec.md",
       "specs/*.md",
       "docs/adr/*.md",
       "docs/architecture/decisions/*.md",
       "DESIGN.md",
       "docs/design/*.md",
       "docs/rfcs/*.md",
       "TECHNICAL_OVERVIEW.md",
       "API.md",
       "docs/API.md",
       "*/docs/API.md",
       "docs/api/*.md",
       "DATA_MODEL.md",
       "docs/data/*.md",
       "SECURITY.md",
       "docs/SECURITY.md",
       "GLOSSARY.md",
       "DOMAIN.md",
       "CONVENTIONS.md",
       "STYLE.md",
       "CONTRIBUTING.md",
       "PATTERNS.md",
       "ANTI_PATTERNS.md",
       "CODE_REVIEW.md",
       "PR_REVIEW.md",
       "PULL_REQUEST_TEMPLATE.md",
       ".github/PULL_REQUEST_TEMPLATE.md",
       ".github/pull_request_template.md",
       "docs/PR_REVIEW.md",
       "docs/CODE_REVIEW.md",
       "NAMING.md",
       "DEVELOPMENT.md",
       "docs/DEVELOPMENT.md",
       "SETUP.md",
       "docs/SETUP.md",
       "docs/LOCAL_SETUP.md",
       "*/docs/LOCAL_SETUP.md",
       "TESTING.md",
       "docs/TESTING.md",
       "*/docs/TESTING.md",
       "DEBUGGING.md",
       "PERFORMANCE.md",
       "DEPLOYMENT.md",
       "docs/DEPLOYMENT.md",
       "*/docs/DEPLOYMENT.md",
       "INFRASTRUCTURE.md",
       "DEPENDENCIES.md",
       "MIGRATION.md",
       "CHANGELOG.md",
       "docs/runbooks/*.md",
       "docs/guides/*.md",
       "docs/*.md",
       "*/docs/*.md",
       "backend/*.md",
       "frontend/*.md",
       "server/*.md",
       "client/*.md",
       "api/*.md",
       "src/*.md",
       "lib/*.md",
       "packages/*/*.md",
       "services/*/*.md",
       "*/*/*.md",
       "*/*/*/*.md"]
    directory_patterns :=
      ["docs/architecture",
       "docs/adr",
       "docs/design",
       "docs/rfcs",
       "docs/api",
       "docs/runbooks",
       "docs/guides",
       "examples",
       ".cursor/rules"]
    weight := 3/2 }

/-- `LEVEL_3_PATTERNS`. -/
def LEVEL_3_PATTERNS : LevelConfig :=
  { name := "Level 3: Skills, Memory & Workflows"
    description := "Skill files, memory systems, hooks, and workflow definitions"
    file_patterns :=
      ["SKILL.md",
       "skills/*.md",
       "skills/*/SKILL.md",
       ".claude/skills/*/SKILL.md",
       ".claude/skills/*/*/*.md",
       ".github/skills/*/SKILL.md",
       ".github/skills/*/*.md",
       ".copilot/skills/*/SKILL.md",
       ".copilot/skills/*/*.md",
       ".codex/skills/*/SKILL.md",
       ".codex/skills/*/*.md",
       "CAPABILITIES.md",
       "WORKFLOWS.md",
       "COMMANDS.md",
       ".claude/commands/*.md",
       "Makefile",
       "justfile",
       "scripts/*.sh",
       "scripts/*.py",
       "scripts/*.md",
       "scripts/README.md",
       "MEMORY.md",
       "LEARNINGS.md",
       "DECISIONS.md",
       ".memory/*.md",
       ".memory/*.json",
       "RETROSPECTIVES.md",
       "KNOWN_ISSUES.md",
       "TROUBLESHOOTING.md",
       "FAQ.md",
       "GOTCHAS.md",
       "HISTORY.md",
       "context.yaml",
       "context.json",
       ".github/agents/*.agent.md",
       ".github/agents/*.md",
       ".claude/agents/*.md",
       "agents/*.md",
       ".github/agents/references.md",
       ".claude/agents/references.md",
       "agents/references.md",
       ".context/*.md",
       ".ai/*.md",
       "PROMPTS.md",
       ".prompts/*.md",
       "personas/*.md",
       ".claude/hooks/*.sh",
       ".claude/hooks/*.py",
       ".claude/settings.json",
       ".claude/settings.local.json",
       ".husky/*",
       "mcp.json",
       ".mcp/*.json",
       "mcp-config.json",
       "mcp-server/*.md",
       "templates/*.md",
       "*/templates/*.md",
       "*/templates/*/*.md"]
    directory_patterns :=
      ["skills",
       ".claude/commands",
       ".claude/hooks",
       ".claude/skills",
       ".claude/agents",
       ".github/skills",
       ".copilot/skills",
       ".codex/skills",
       "agents",
       ".memory",
       ".context",
       ".ai",
       ".prompts",
       "personas",
       ".mcp",
       ".github/agents",
       ".codex"]
    weight := 2 }

/-- `LEVEL_4_PATTERNS`. -/
def LEVEL_4_PATTERNS : LevelConfig :=
  { name := "Level 4: Multi-Agent Orchestration"
    description := "Multiple specialized agents, shared context, and orchestration infrastructure"
    file_patterns :=
      [".github/agents/reviewer.agent.md",
       ".github/agents/pr-reviewer.agent.md",
       ".github/agents/code-reviewer.agent.md",
       ".github/agents/tester.agent.md",
       ".github/agents/documenter.agent.md",
       ".github/agents/security.agent.md",
       ".github/agents/architect.agent.md",
       ".github/agents/refactorer.agent.md",
       ".github/agents/debugger.agent.md",
       ".github/agents/planner.agent.md",
       "agents/HANDOFFS.md",
       "agents/ORCHESTRATION.md",
       "agents/REFERENCES.md",
       "roles/*.md",
       ".mcp/servers/*.json",
       "tools/TOOLS.md",
       "tools/*.json",
       "SHARED_CONTEXT.md",
       "packages/*/CLAUDE.md",
       "packages/*/AGENTS.md",
       ".beads/*.md",
       ".beads/*.json",
       "memory/global/*.md",
       "memory/project/*.md",
       ".agent_state/*.json",
       "orchestration.yaml",
       "orchestration/*.yaml",
       "workflows/code_review.yaml",
       "workflows/feature_development.yaml",
       "workflows/incident_response.yaml",
       "GOVERNANCE.md"]
    directory_patterns :=
      ["agents",
       "roles",
       ".beads",
       "memory/global",
       "memory/project",
       ".agent_state",
       "orchestration",
       "workflows",
       ".mcp/servers",
       "tools"]
    weight := 3 }

/-- `LEVELS` (the shipped table defines ordinals 1 through 4 only). -/
def LEVELS_list : List (Nat × LevelConfig) :=
  [(1, LEVEL_1_PATTERNS), (2, LEVEL_2_PATTERNS), (3, LEVEL_3_PATTERNS), (4, LEVEL_4_PATTERNS)]

def LEVELS_get (n : Nat) : Option LevelConfig := LEVELS_list.lookup n

/-- `CORE_AI_FILES` (the `measure_ai_proficiency/config.py` version imported
by the scanner). -/
def CORE_AI_FILES : List String :=
  ["CLAUDE.md", "AGENTS.md", ".github/copilot-instructions.md", ".cursorrules"]

/-! ## Repository override configuration

`scanner.py` imports `load_repo_config` and `RepoConfig` from `repo_config.py`,
which is not part of the source tree under verification. -/

/-- Modelled from the spec: `repo_config.py` is absent from the source tree;
per §6 the optional per-repository override configuration carries a tool list
and per-level coverage thresholds (an override replaces only the specified
level's threshold).  The scan is parameterised by the loaded configuration. -/
structure RepoConfig where
  tools : List String
  thresholds : List (Nat × ℚ)

/-- The configuration obtained when the repository declares no overrides. -/
def default_config : RepoConfig := ⟨[], []⟩

/-! ## Maturity calculator (`_calculate_overall_level`) -/

/-- The default per-level thresholds of `_calculate_overall_level`. -/
def default_thresholds : List (Nat × ℚ) :=
  [(3, 15), (4, 12), (5, 10), (6, 8), (7, 6), (8, 5)]

/-- `thresholds.get(level_num, 5)` after merging config overrides over the
defaults. -/
def threshold_for (cfg : RepoConfig) (n : Nat) : ℚ :=
  match cfg.thresholds.lookup n with
  | some t => t
  | none =>
    match default_thresholds.lookup n with
    | some t => t
    | none => 5

/-- The core-file test of `_calculate_overall_level`:
`any(any(core in f.path for core in CORE_AI_FILES) for f in matched_files)`. -/
def has_core_file (files : List FileMatch) : Bool :=
  files.any (fun f => CORE_AI_FILES.any (fun core => str_has_sub f.path core))

/-- The gating loop `for level_num in range(3, 9)`: advance to `level_num`
while a LevelScore exists for it and its coverage meets the threshold; stop
(keeping the current level) at the first level that fails. -/
def advance_levels (thr : Nat → ℚ) (d : List (Nat × LevelScore)) :
    List Nat → Nat → Nat
  | [], cur => cur
  | n :: rest, cur =>
    match d.lookup n with
    | some s => if thr n ≤ s.coverage_percent then advance_levels thr d rest n else cur
    | none => cur

/-- `_calculate_overall_level(level_scores)`. -/
def calculate_overall_level (cfg : RepoConfig) (d : List (Nat × LevelScore)) : Nat :=
  match d.lookup 2 with
  | none => 1
  | some level_2 =>
    if level_2.substantive_file_count = 0 then 1
    else if ¬ has_core_file level_2.matched_files then 1
    else advance_levels (threshold_for cfg) d (List.range' 3 6) 2

/-! ## Overall score (`_calculate_overall_score`) -/

/-- The contribution a level adds to `total_score`:
`coverage_score * substantive_ratio * weight * 12.5` when the level declares
at least one pattern, nothing otherwise. -/
def score_contribution (config : LevelConfig) (s : LevelScore) : ℚ :=
  if s.total_patterns > 0 then
    (s.coverage_percent / 100) *
      (if s.file_count > 0 then
        (s.substantive_file_count : ℚ) / (max s.file_count 1 : ℚ)
      else 0) *
      config.weight * (25 / 2)
  else 0

/-- One step of the accumulation over `level_scores.items()`; the weight comes
from `LEVELS[level_num]` (in `scan` the keys are always keys of the table, so
the impossible-key branch mirroring Python's `KeyError` is never taken). -/
def score_step (acc : ℚ × ℚ) (it : Nat × LevelScore) : ℚ × ℚ :=
  match LEVELS_get it.1 with
  | none => acc
  | some config =>
    (acc.1 + score_contribution config it.2, acc.2 + config.weight * (25 / 2))

/-- `_calculate_overall_score(level_scores)`. -/
def calculate_overall_score (d : List (Nat × LevelScore)) : ℚ :=
  let r := d.foldl score_step (0, 0)
  if r.2 > 0 then min 100 (r.1 / r.2 * 100) else 0

/-! ## Quality evaluator (`_evaluate_quality`, `QUALITY_PATTERNS`)

The four `QUALITY_PATTERNS` regexes are compiled by hand into character
scanners with `findall` counting semantics.  The `sections` pattern is
evaluated per line (its `^` is `re.MULTILINE`); for the degenerate case of a
header line whose text continues only on the following line via `\s+`
matching the newline itself, the per-line model counts 0 where CPython
counts 1 — no property below depends on the exact counts. -/

/-- A match of `(?:/[\w\-./]+|~/[\w\-./]+)` with the optional closing
backtick, returning the matched length. -/
def paths_body (cs : List Char) : Option Nat :=
  match cs with
  | '/' :: t =>
    let run := t.takeWhile (fun c => is_word_char c ∨ c = '-' ∨ c = '.' ∨ c = '/')
    if run.isEmpty then none
    else some (1 + run.length +
      (match t.drop run.length with
       | c :: _ => if c = btick then 1 else 0
       | [] => 0))
  | '~' :: '/' :: t =>
    let run := t.takeWhile (fun c => is_word_char c ∨ c = '-' ∨ c = '.' ∨ c = '/')
    if run.isEmpty then none
    else some (2 + run.length +
      (match t.drop run.length with
       | c :: _ => if c = btick then 1 else 0
       | [] => 0))
  | _ => none

/-- The `paths` quality regex: `[`~]?(?:/[\w\-./]+|~/[\w\-./]+)[`]?`. -/
def paths_match_len (_ : Option Char) (cs : List Char) : Option Nat :=
  match cs with
  | [] => none
  | c :: rest =>
    if c = btick ∨ c = '~' then
      match paths_body rest with
      | some n => some (n + 1)
      | none => paths_body cs
    else paths_body cs

/-- The `commands` quality regex: a backtick, a lowercase letter, a run of
word characters or hyphens, optionally whitespace followed by at least one
further non-backtick character, and a closing backtick. -/
def commands_match_len (_ : Option Char) (cs : List Char) : Option Nat :=
  match cs with
  | d :: c0 :: t =>
    if d = btick ∧ c0.isLower then
      let run := t.takeWhile (fun c => is_word_char c ∨ c = '-')
      let rem := t.drop run.length
      match rem with
      | e :: _ =>
        if e = btick then some (run.length + 3)
        else
          let seg := rem.takeWhile (fun c => c ≠ btick)
          match rem.drop seg.length with
          | _ :: _ =>
            if (match seg with
                | s0 :: _ :: _ => is_ws s0
                | _ => false)
            then some (run.length + seg.length + 3) else none
          | [] => none
      | [] => none
    else none
  | _ => none

/-- The constraint vocabulary, in the regex's alternation order. -/
def constraint_words : List (List Char) :=
  [['n','e','v','e','r'], ['a','v','o','i','d'],
   ['d','o','n', apostrophe, 't'], ['d','o',' ','n','o','t'],
   ['m','u','s','t',' ','n','o','t'], ['a','l','w','a','y','s'],
   ['r','e','q','u','i','r','e','d']]

/-- The `constraints` quality regex: a constraint word, case-insensitive,
delimited by word boundaries (every alternative starts and ends with a word
character, so `\b` requires a non-word character, or the text edge, on both
sides). -/
def constraints_match_len (prev : Option Char) (cs : List Char) : Option Nat :=
  if (match prev with | some c => is_word_char c | none => false) then none
  else
    match constraint_words.find? (fun w =>
      w.isPrefixOf (cs.map Char.toLower) &&
        (match (cs.map Char.toLower).drop w.length with
         | c :: _ => ! is_word_char c
         | [] => true)) with
    | some w => some w.length
    | none => none

/-- `finditer` counting: leftmost matches, non-overlapping, tracking the
character preceding the current position for boundary tests. -/
def finditer_count (matchAt : Option Char → List Char → Option Nat) :
    Nat → Option Char → List Char → Nat
  | 0, _, _ => 0
  | _ + 1, _, [] => 0
  | f + 1, prev, c :: rest =>
    match matchAt prev (c :: rest) with
    | some len =>
      let len1 := max len 1
      1 + finditer_count matchAt f (((c :: rest).take len1).getLast?) ((c :: rest).drop len1)
    | none => finditer_count matchAt f (some c) rest

def count_paths (content : String) : Nat :=
  finditer_count paths_match_len content.data.length none content.data

def count_commands (content : String) : Nat :=
  finditer_count commands_match_len content.data.length none content.data

def count_constraints (content : String) : Nat :=
  finditer_count constraints_match_len content.data.length none content.data

/-- A line matched by the `sections` regex `^#{1,3}\s+.+`: one to three
leading hashes, then a whitespace character, then at least one more
character. -/
def is_section_line (line : String) : Bool :=
  let h := (line.data.takeWhile (fun c => c = '#')).length
  let rest := line.data.drop h
  decide (1 ≤ h) && decide (h ≤ 3) &&
    (match rest with
     | c :: _ :: _ => is_ws c
     | _ => false)

def count_sections (content : String) : Nat :=
  ((split_char '\n' content).filter is_section_line).length

/-- `len(content.split())`: the number of maximal whitespace-free runs. -/
def word_count_go : List Char → Bool → Nat
  | [], _ => 0
  | c :: t, in_word =>
    if is_ws c then word_count_go t false
    else (if in_word then 0 else 1) + word_count_go t true

def word_count (content : String) : Nat := word_count_go content.data false

/-- The word-count substance component of the quality score:
`2.0 if len(words) > 200 else (1.0 if len(words) > 50 else 0.0)`. -/
def substance_bonus (words : Nat) : ℚ :=
  if words > 200 then 2 else if words > 50 then 1 else 0

/-- The commit-history component: 2 points for ≥ 5 commits, 1 point for
≥ 3. -/
def commit_bonus (commit_count : Nat) : ℚ :=
  if commit_count ≥ 5 then 2 else if commit_count ≥ 3 then 1 else 0

/-- `ContentQuality`. -/
structure ContentQuality where
  has_sections : Bool
  has_specific_paths : Bool
  has_tool_commands : Bool
  has_constraints : Bool
  has_cross_refs : Bool
  word_count : Nat
  section_count : Nat
  commit_count : Nat
  quality_score : ℚ
deriving DecidableEq

/-- `_evaluate_quality(content, commit_count)`. -/
def evaluate_quality (content : String) (commit_count : Nat) : ContentQuality :=
  let sections := count_sections content
  let paths := count_paths content
  let commands := count_commands content
  let constraints := count_constraints content
  let words := word_count content
  let score : ℚ :=
    min ((sections : ℚ) / 5) 2 + min ((paths : ℚ) / 3) 2 + min ((commands : ℚ) / 3) 2 +
      min ((constraints : ℚ) / 2) 2 + substance_bonus words + commit_bonus commit_count
  { has_sections := sections > 0
    has_specific_paths := paths > 0
    has_tool_commands := commands > 0
    has_constraints := constraints > 0
    has_cross_refs := false
    word_count := words
    section_count := sections
    commit_count := commit_count
    quality_score := min score 10 }

/-! ## Cross-reference extractor (`CROSS_REF_PATTERNS`, `_extract_references`)

Each of the four `CROSS_REF_PATTERNS` regexes is compiled by hand into a
match-at-position function returning the matched length and the extracted
target group (`_extract_target`); a fuelled scanner gives `finditer`
semantics. -/

/-- The documentation/config extensions of the `markdown_link` regex. -/
def md_exts : List String := [".md", ".yaml", ".yml", ".json", ".rules", ".mdc"]

/-- The link path group `[^)]+\.(?:md|yaml|yml|json|rules|mdc)` spans exactly
the characters up to the closing parenthesis, so it matches iff that span
ends, case-insensitively, in one of the extensions with at least one
character before the dot. -/
def ends_with_md_ext (g2 : List Char) : Bool :=
  md_exts.any fun e =>
    e.data.isSuffixOf (g2.map Char.toLower) && e.length + 1 ≤ g2.length

/-- `markdown_link`: `\[([^\]]+)\]\(([^)]+\.(?:md|yaml|yml|json|rules|mdc))\)`
(IGNORECASE); the target is group 2. -/
def markdown_link_match_at (_ : Bool) (cs : List Char) : Option (Nat × String) :=
  match cs with
  | '[' :: t =>
    let g1 := t.takeWhile (fun c => c ≠ ']')
    if g1.isEmpty then none
    else
      match t.drop g1.length with
      | ']' :: '(' :: u =>
        let g2 := u.takeWhile (fun c => c ≠ ')')
        if g2.isEmpty then none
        else
          match u.drop g2.length with
          | ')' :: _ =>
            if ends_with_md_ext g2 then some (g1.length + g2.length + 4, String.mk g2)
            else none
          | _ => none
      | _ => none
  | _ => none

def fm_delim (c : Char) : Bool := c = btick ∨ c = '"' ∨ c = apostrophe

def fm_exts : List String := ["md", "yaml", "yml", "json"]

/-- The extension alternation of the `file_mention` regex, which must be
immediately followed by a closing delimiter. -/
def fm_find_ext (v : List Char) : Option String :=
  fm_exts.find? fun e =>
    e.data.isPrefixOf v &&
      (match v.drop e.length with
       | d :: _ => fm_delim d
       | [] => false)

/-- `file_mention`: a quoted or backticked bare filename
`[`"\']([A-Z][A-Za-z0-9_\-]+\.(?:md|yaml|yml|json))[`"\']`. -/
def file_mention_match_at (_ : Bool) (cs : List Char) : Option (Nat × String) :=
  match cs with
  | d :: u :: t =>
    if fm_delim d ∧ u.isUpper then
      let run := t.takeWhile (fun c => c.isAlphanum ∨ c = '_' ∨ c = '-')
      if run.isEmpty then none
      else
        match t.drop run.length with
        | '.' :: v =>
          match fm_find_ext v with
          | some e => some (run.length + e.length + 4, String.mk (u :: run ++ '.' :: e.data))
          | none => none
        | _ => none
    else none
  | _ => none

def rel_exts : List String := ["md", "yaml", "yml", "json"]

def rel_char (c : Char) : Bool := is_word_char c ∨ c = '-' ∨ c = '.' ∨ c = '/'

/-- The first extension (in alternation order) readable at position `j + 1`
of the body run. -/
def rel_ext_at (run : List Char) (j : Nat) : Option String :=
  rel_exts.find? (fun e => e.data.isPrefixOf (run.drop (j + 1)))

/-- The greedy split of the body run `[\w\-./]+\.(?:md|yaml|yml|json)`: the
largest `j ≥ 1` such that `run[j]` is a dot followed by one of the
extensions (the regex need not consume the rest of the run). -/
def rel_best_j (run : List Char) : Option Nat :=
  ((List.range run.length).filter
    (fun j => decide (1 ≤ j) && decide (run.getD j ' ' = '.') && (rel_ext_at run j).isSome)).getLast?

/-- `relative_path` without its boundary: `\.{1,2}/[\w\-./]+\.(?:md|yaml|yml|json)`. -/
def relative_path_parse (cs : List Char) : Option (Nat × String) :=
  let k : Option Nat :=
    match cs with
    | '.' :: '.' :: '/' :: _ => some 2
    | '.' :: '/' :: _ => some 1
    | _ => none
  match k with
  | none => none
  | some k =>
    let run := (cs.drop (k + 1)).takeWhile rel_char
    match rel_best_j run with
    | none => none
    | some j =>
      match rel_ext_at run j with
      | none => none
      | some e =>
        some (k + 1 + j + 1 + e.length,
          String.mk (cs.take (k + 1) ++ run.take j ++ '.' :: e.data))

/-- The directory-name alternation of `directory_ref`, in order. -/
def dir_names : List String :=
  ["skills", ".claude", ".github", ".copilot", "docs", "agents", "workflows", ".mcp"]

def dir_name_at (cs : List Char) : Option String :=
  dir_names.find? (fun nm => nm.data.isPrefixOf cs)

/-- Length consumed by the greedy `(?:/[\w\-]+)*` (fuelled: every segment
consumes at least two characters, so the list length bounds the steps). -/
def dir_segs_fuel : Nat → List Char → Nat
  | 0, _ => 0
  | f + 1, cs =>
    match cs with
    | '/' :: t =>
      let run := t.takeWhile (fun c => is_word_char c ∨ c = '-')
      if run.isEmpty then 0 else 1 + run.length + dir_segs_fuel f (t.drop run.length)
    | _ => 0

def dir_segs (cs : List Char) : Nat := dir_segs_fuel cs.length cs

/-- The `\.?/?` optional prefixes of `directory_ref`, as consumed lengths in
greedy backtracking order. -/
def dir_prefix_options (cs : List Char) : List Nat :=
  (match cs with
   | '.' :: '/' :: _ => [2, 1]
   | '.' :: _ => [1]
   | _ => []) ++
  (match cs with
   | '/' :: _ => [1]
   | _ => []) ++ [0]

def dir_ref_try (cs : List Char) : List Nat → Option (Nat × String)
  | [] => none
  | c0 :: rest =>
    match dir_name_at (cs.drop c0) with
    | some nm =>
      let after_name := cs.drop (c0 + nm.length)
      let seg_len := dir_segs after_name
      let trail :=
        match after_name.drop seg_len with
        | '/' :: _ => 1
        | _ => 0
      let len := c0 + nm.length + seg_len + trail
      some (len, String.mk (cs.take len))
    | none => dir_ref_try cs rest

/-- `directory_ref` without its boundary:
`\.?/?(?:skills|\.claude|\.github|\.copilot|docs|agents|workflows|\.mcp)(?:/[\w\-]+)*/?`. -/
def dir_ref_parse (cs : List Char) : Option (Nat × String) :=
  dir_ref_try cs (dir_prefix_options cs)

/-- The `(?:^|\s)` boundary of `relative_path` and `directory_ref`: at the
line start the group is tried directly first, otherwise a consumed
whitespace character must precede it. -/
def with_boundary (parse : List Char → Option (Nat × String))
    (atStart : Bool) (cs : List Char) : Option (Nat × String) :=
  let ws_case : Option (Nat × String) :=
    match cs with
    | c :: t => if is_ws c then (parse t).map (fun r => (r.1 + 1, r.2)) else none
    | [] => none
  if atStart then
    match parse cs with
    | some r => some r
    | none => ws_case
  else ws_case

/-- `finditer` collecting extracted targets: leftmost matches,
non-overlapping. -/
def finditer_targets (matchAt : Bool → List Char → Option (Nat × String)) :
    Nat → Bool → List Char → List String
  | 0, _, _ => []
  | _ + 1, _, [] => []
  | f + 1, atStart, c :: rest =>
    match matchAt atStart (c :: rest) with
    | some (len, t) => t :: finditer_targets matchAt f false ((c :: rest).drop (max len 1))
    | none => finditer_targets matchAt f false rest

/-- All raw (reference_type, target) candidates of one line, iterating the
pattern families in the insertion order of `CROSS_REF_PATTERNS`. -/
def line_candidates (line : String) : List (String × String) :=
  let cs := line.data
  (finditer_targets markdown_link_match_at cs.length true cs).map
    (fun t => ("markdown_link", t)) ++
  (finditer_targets file_mention_match_at cs.length true cs).map
    (fun t => ("file_mention", t)) ++
  (finditer_targets (with_boundary relative_path_parse) cs.length true cs).map
    (fun t => ("relative_path", t)) ++
  (finditer_targets (with_boundary dir_ref_parse) cs.length true cs).map
    (fun t => ("directory_ref", t))

/-- `CrossReference`. -/
structure CrossReference where
  source_file : String
  target : String
  reference_type : String
  line_number : Nat
  is_resolved : Bool
deriving DecidableEq

/-- `target.startswith(('http://', 'https://', 'mailto:', '#'))`. -/
def is_external (target : String) : Bool :=
  ["http://", "https://", "mailto:", "#"].any
    (fun pfx => pfx.data.isPrefixOf target.data)

/-- `target.lstrip('./')`: strip every leading dot or slash. -/
def normalize_target (target : String) : String :=
  String.mk (target.data.dropWhile (fun c => c = '.' ∨ c = '/'))

/-- `_resolve_target(target)`: the target exists directly under the root or
under one of the common documentation prefixes. -/
def resolve_target (fs : FS) (target : String) : Bool :=
  path_exists fs target ||
    ["docs/", ".github/", ".claude/"].any (fun pfx => path_exists fs (pfx ++ target))

/-- The per-match body of `_extract_references`: external targets skipped,
normalization, deduplication on (normalized target, line number) through the
`seen` set, resolution. -/
def process_matches (fs : FS) (src : String) (ln : Nat) :
    List (String × String) → List (String × Nat) →
      List CrossReference × List (String × Nat)
  | [], seen => ([], seen)
  | (rt, target) :: rest, seen =>
    if is_external target then process_matches fs src ln rest seen
    else
      let normalized := normalize_target target
      if (normalized, ln) ∈ seen then process_matches fs src ln rest seen
      else
        let r := process_matches fs src ln rest ((normalized, ln) :: seen)
        (⟨src, normalized, rt, ln, resolve_target fs normalized⟩ :: r.1, r.2)

/-- The line loop of `_extract_references` (1-indexed; the `seen` set spans
the whole file). -/
def extract_lines (fs : FS) (src : String) :
    List String → Nat → List (String × Nat) → List CrossReference
  | [], _, _ => []
  | line :: rest, ln, seen =>
    let r := process_matches fs src ln (line_candidates line) seen
    r.1 ++ extract_lines fs src rest (ln + 1) r.2

/-- `_extract_references(source, content)`. -/
def extract_references (fs : FS) (src : String) (content : String) :
    List CrossReference :=
  extract_lines fs src (split_char '\n' content) 1 []

/-! ## Instruction-file discovery and the cross-reference scan -/

/-- `INSTRUCTION_FILES` (a Python set; iteration order is modelled by the
declaration order — no property depends on the order). -/
def INSTRUCTION_FILES : List String :=
  ["CLAUDE.md", "AGENTS.md", ".cursorrules", "CODEX.md",
   ".github/copilot-instructions.md", ".copilot-instructions.md",
   ".github/AGENTS.md"]

/-- The scoped instruction-file glob patterns of `_find_instruction_files`. -/
def scoped_instruction_patterns : List String :=
  [".github/instructions/*.instructions.md",
   ".cursor/rules/*.md",
   ".claude/skills/*/SKILL.md",
   ".github/skills/*/SKILL.md",
   ".cursor/skills/*/SKILL.md",
   ".copilot/skills/*/SKILL.md",
   ".codex/skills/*/SKILL.md"]

/-- `pathlib.Path.glob`: the pattern is matched segment by segment (`*` does
not cross `/`). -/
def glob_segments : List String → List String → Bool
  | [], [] => true
  | p :: ps, q :: qs => glob_match p.data q.data && glob_segments ps qs
  | _, _ => false

def MAX_CROSS_REF_FILE_SIZE : Nat := 100000

/-- `_find_instruction_files()`: the known instruction files that exist as
regular files within the size ceiling, then the regular files matching each
scoped pattern (a directory matched by a scoped glob would be dropped by the
subsequent unreadable-content check, so only regular files are enumerated). -/
def find_instruction_files (fs : FS) : List String :=
  INSTRUCTION_FILES.filter
    (fun n => is_file fs n && file_size fs n ≤ MAX_CROSS_REF_FILE_SIZE) ++
  scoped_instruction_patterns.flatMap (fun pat =>
    fs.files.filterMap (fun f =>
      if glob_segments (split_char '/' pat) (split_char '/' f.1) &&
          f.2 ≤ MAX_CROSS_REF_FILE_SIZE
      then some f.1 else none))

/-- `_read_file_safe(path)`: `none` above the size ceiling or when the read
fails. -/
def read_file_safe (fs : FS) (p : String) : Option String :=
  match fs.files.lookup p with
  | some sz => if sz > MAX_CROSS_REF_FILE_SIZE then none else fs.contents p
  | none => none

/-- Python `dict` assignment: replace in place if the key exists, else
append. -/
def dict_set (l : List (String × ContentQuality)) (k : String) (v : ContentQuality) :
    List (String × ContentQuality) :=
  match l with
  | [] => [(k, v)]
  | (k0, v0) :: t => if k0 = k then (k0, v) :: t else (k0, v0) :: dict_set t k v

/-- `CrossReferenceResult`. -/
structure CrossReferenceResult where
  references : List CrossReference
  source_files_scanned : Nat
  resolved_count : Nat
  quality_scores : List (String × ContentQuality)
  bonus_points : ℚ

/-- `_calculate_cross_ref_bonus(refs, quality)`. -/
def calculate_cross_ref_bonus (refs : List CrossReference)
    (quality : List (String × ContentQuality)) : ℚ :=
  let b1 : ℚ :=
    if refs.isEmpty then 0
    else
      let unique_targets := (refs.map (fun r => r.target)).toFinset
      let resolved_rate : ℚ :=
        (refs.countP (fun r => r.is_resolved) : ℚ) / (refs.length : ℚ)
      min ((unique_targets.card : ℚ) / 2) 3 + resolved_rate * 2
  let b2 : ℚ :=
    if quality.isEmpty then 0
    else ((quality.map (fun kv => kv.2.quality_score)).sum / (quality.length : ℚ)) / 2
  min (b1 + b2) 10

/-- The per-source body of `_scan_cross_references`: a readable, non-empty
content contributes its references and its quality record (with
`has_cross_refs` overwritten from the actual reference count). -/
def xref_step (fs : FS) (commit : String → Nat)
    (acc : List CrossReference × List (String × ContentQuality)) (src : String) :
    List CrossReference × List (String × ContentQuality) :=
  match read_file_safe fs src with
  | none => acc
  | some content =>
    if content = "" then acc
    else
      let refs := extract_references fs src content
      let commit_count := commit src
      let q := evaluate_quality content commit_count
      let q2 : ContentQuality :=
        { has_sections := q.has_sections
          has_specific_paths := q.has_specific_paths
          has_tool_commands := q.has_tool_commands
          has_constraints := q.has_constraints
          has_cross_refs := refs.length > 0
          word_count := q.word_count
          section_count := q.section_count
          commit_count := commit_count
          quality_score := q.quality_score }
      (acc.1 ++ refs, dict_set acc.2 src q2)

/-- `_scan_cross_references()`; the git commit count is the auxiliary signal
oracle `commit` (spec §6). -/
def scan_cross_references (fs : FS) (commit : String → Nat) : CrossReferenceResult :=
  let sources := find_instruction_files fs
  let r := sources.foldl (xref_step fs commit) ([], [])
  { references := r.1
    source_files_scanned := sources.length
    resolved_count := r.1.countP (fun x => x.is_resolved)
    quality_scores := r.2
    bonus_points := calculate_cross_ref_bonus r.1 r.2 }

/-! ## The scan -/

/-- `RepoScore` (the report fields `repo_path`, `repo_name`, `scan_time` and
the advisory `recommendations` strings of §4.6 are not modelled; no property
refers to them). -/
structure RepoScore where
  level_scores : List (Nat × LevelScore)
  overall_level : Nat
  overall_score : ℚ
  detected_tools : List String
  cross_references : CrossReferenceResult

/-- `RepoScore.has_any_ai_files`: some level ≥ 2 has at least one matched
file. -/
def RepoScore.has_any_ai_files (r : RepoScore) : Bool :=
  r.level_scores.any (fun p => decide (2 ≤ p.1) && decide (0 < p.2.file_count))

/-- `RepoScanner.scan()`, parameterised by the auxiliary commit-count oracle
and by the loaded repository configuration (`load_repo_config` lives in the
absent `repo_config.py`). -/
def scan (fs : FS) (commit : String → Nat) (cfg : RepoConfig) : RepoScore :=
  let level_scores := LEVELS_list.map (fun p => (p.1, scan_level fs (stat_of fs) p.1 p.2))
  let xrefs := scan_cross_references fs commit
  let base := calculate_overall_score level_scores
  { level_scores := level_scores
    overall_level := calculate_overall_level cfg level_scores
    overall_score := min 100 (base + xrefs.bonus_points)
    detected_tools := cfg.tools
    cross_references := xrefs }

/-! ## Concrete instances used by the theorems below -/

/-- A repository whose only content is a substantive (250-byte) primary
instruction file `CLAUDE.md`. -/
def fs_claude_only : FS := ⟨[("CLAUDE.md", 250)], [], fun _ => none⟩

/-- The empty repository. -/
def fs_empty : FS := ⟨[], [], fun _ => none⟩

/-- A repository with `ARCHITECTURE.md` present at the root. -/
def fs_arch_present : FS := ⟨[("ARCHITECTURE.md", 500)], [], fun _ => none⟩

/-- The neutral auxiliary signal (no version-control history). -/
def no_commits : String → Nat := fun _ => 0

/-- The single-line instruction content of the cross-reference property. -/
def c7_line : String := "[x](./ARCHITECTURE.md)"

/-- A stat oracle that always fails (the file vanished between discovery and
stat, or permission was denied). -/
def stat_fail : String → Option StatInfo := fun _ => none

/-- A level at ordinal `n` passes its gate: a `LevelScore` exists for it and
its coverage meets the threshold. -/
def level_passes (thr : Nat → ℚ) (d : List (Nat × LevelScore)) (n : Nat) : Prop :=
  ∃ s, d.lookup n = some s ∧ thr n ≤ s.coverage_percent

/-- An instruction content of exactly 200 whitespace-separated words and no
other quality indicators. -/
def c4_content : String := String.mk ((List.replicate 199 ['x', ' ']).flatten ++ ['x'])

/-- A substantive core-file match, for instantiating the gating theorem. -/
def w_file_match : FileMatch := ⟨"CLAUDE.md", "CLAUDE.md", 1, 250, none⟩

def w_level_1 : LevelScore := ⟨1, "", "", [], [], 6, 0⟩

def w_level_2 : LevelScore := ⟨2, "", "", [w_file_match], [], 80, 50⟩

def w_level_3 : LevelScore := ⟨3, "", "", [], [], 58, 50⟩

def w_level_4 : LevelScore := ⟨4, "", "", [], [], 41, 20⟩

/-- Concrete per-level scores whose base gate passes, whose levels 3 and 4
meet the default thresholds, and which define no level 5. -/
def w_scores : List (Nat × LevelScore) :=
  [(1, w_level_1), (2, w_level_2), (3, w_level_3), (4, w_level_4)]

/-! # Theorems -/

/-! ## Level scoring: coverage characterisation -/

theorem foldl_insert_const (p : String) :
    ∀ (ms : List String) (s : Finset String),
      ms.foldl (fun s _ => insert p s) s = if ms.isEmpty then s else insert p s := by
  intro ms
  induction ms with
  | nil => intro s; simp
  | cons a t ih =>
    intro s
    simp only [List.foldl_cons, ih, List.isEmpty_cons]
    cases t with
    | nil => simp
    | cons b u => simp [Finset.insert_idem]

theorem file_fold_fst (fs : FS) (stat : String → Option StatInfo) (lvl : Nat) :
    ∀ (l : List String) (acc : List FileMatch × Finset String),
      (l.foldl (file_pattern_step fs stat lvl) acc).1 =
        acc.1 ++ l.flatMap
          (fun p => (find_matches fs p).map (fun m => create_file_match stat m p lvl)) := by
  intro l
  induction l with
  | nil => intro acc; simp
  | cons p t ih =>
    intro acc
    simp only [List.foldl_cons, ih, file_pattern_step, List.flatMap_cons, List.append_assoc]

theorem file_fold_snd_mem (fs : FS) (stat : String → Option StatInfo) (lvl : Nat) (x : String) :
    ∀ (l : List String) (acc : List FileMatch × Finset String),
      (x ∈ (l.foldl (file_pattern_step fs stat lvl) acc).2 ↔
        x ∈ acc.2 ∨ (x ∈ l ∧ find_matches fs x ≠ [])) := by
  intro l
  induction l with
  | nil => intro acc; simp
  | cons p t ih =>
    intro acc
    simp only [List.foldl_cons, ih, file_pattern_step, foldl_insert_const, List.mem_cons]
    by_cases h : (find_matches fs p).isEmpty
    · rw [if_pos h]
      rw [List.isEmpty_iff] at h
      constructor
      · rintro (ha | hb)
        · exact Or.inl ha
        · exact Or.inr ⟨Or.inr hb.1, hb.2⟩
      · rintro (ha | ⟨(rfl | hx), hne⟩)
        · exact Or.inl ha
        · exact absurd h hne
        · exact Or.inr ⟨hx, hne⟩
    · rw [if_neg h]
      rw [List.isEmpty_iff] at h
      simp only [Finset.mem_insert]
      constructor
      · rintro ((rfl | ha) | hb)
        · exact Or.inr ⟨Or.inl rfl, h⟩
        · exact Or.inl ha
        · exact Or.inr ⟨Or.inr hb.1, hb.2⟩
      · rintro (ha | ⟨(rfl | hx), hne⟩)
        · exact Or.inl (Or.inr ha)
        · exact Or.inl (Or.inl rfl)
        · exact Or.inr ⟨hx, hne⟩

theorem dir_fold_snd_mem (fs : FS) (x : String) :
    ∀ (l : List String) (acc : List String × Finset String),
      (x ∈ (l.foldl (dir_pattern_step fs) acc).2 ↔
        x ∈ acc.2 ∨ (x ∈ l ∧ directory_exists fs x = true)) := by
  intro l
  induction l with
  | nil => intro acc; simp
  | cons p t ih =>
    intro acc
    simp only [List.foldl_cons, dir_pattern_step, List.mem_cons]
    by_cases h : directory_exists fs p = true
    · rw [if_pos h]
      rw [ih]
      simp only [Finset.mem_insert]
      constructor
      · rintro ((rfl | ha) | hb)
        · exact Or.inr ⟨Or.inl rfl, h⟩
        · exact Or.inl ha
        · exact Or.inr ⟨Or.inr hb.1, hb.2⟩
      · rintro (ha | ⟨(rfl | hx), hd⟩)
        · exact Or.inl (Or.inr ha)
        · exact Or.inl (Or.inl rfl)
        · exact Or.inr ⟨hx, hd⟩
    · rw [if_neg h]
      rw [ih]
      constructor
      · rintro (ha | hb)
        · exact Or.inl ha
        · exact Or.inr ⟨Or.inr hb.1, hb.2⟩
      · rintro (ha | ⟨(rfl | hx), hd⟩)
        · exact Or.inl ha
        · exact absurd hd h
        · exact Or.inr ⟨hx, hd⟩

/-- The satisfied-pattern Finset accumulated by `_scan_level` is exactly
`satisfied_patterns`. -/
theorem scan_level_matched_finset (fs : FS) (stat : String → Option StatInfo) (lvl : Nat)
    (lc : LevelConfig) :
    (lc.directory_patterns.foldl (dir_pattern_step fs)
        ([], (lc.file_patterns.foldl (file_pattern_step fs stat lvl) ([], ∅)).2)).2 =
      satisfied_patterns fs lc := by
  ext x
  rw [dir_fold_snd_mem, file_fold_snd_mem]
  simp only [satisfied_patterns, Finset.mem_filter, List.mem_toFinset, List.mem_append,
    Finset.not_mem_empty, false_or, pattern_satisfied, Bool.or_eq_true, Bool.and_eq_true,
    decide_eq_true_eq, Bool.not_eq_true', List.isEmpty_eq_false]
  constructor
  · rintro (⟨hx, hne⟩ | ⟨hx, hd⟩)
    · exact ⟨Or.inl hx, Or.inl ⟨hx, hne⟩⟩
    · exact ⟨Or.inr hx, Or.inr ⟨hx, hd⟩⟩
  · rintro ⟨_, (⟨hx, hne⟩ | ⟨hx, hd⟩)⟩
    · exact Or.inl ⟨hx, hne⟩
    · exact Or.inr ⟨hx, hd⟩

theorem scan_level_total (fs : FS) (stat : String → Option StatInfo) (lvl : Nat)
    (lc : LevelConfig) :
    (scan_level fs stat lvl lc).total_patterns =
      ((lc.file_patterns ++ lc.directory_patterns).toFinset).card := rfl

theorem scan_level_coverage (fs : FS) (stat : String → Option StatInfo) (lvl : Nat)
    (lc : LevelConfig) :
    (scan_level fs stat lvl lc).coverage_percent =
      if ((lc.file_patterns ++ lc.directory_patterns).toFinset).card = 0 then 0
      else ((satisfied_patterns fs lc).card : ℚ) /
        (((lc.file_patterns ++ lc.directory_patterns).toFinset).card : ℚ) * 100 := by
  show (if 0 < ((lc.file_patterns ++ lc.directory_patterns).toFinset).card then _ else (0 : ℚ)) = _
  rw [scan_level_matched_finset]
  rcases Nat.eq_zero_or_pos ((lc.file_patterns ++ lc.directory_patterns).toFinset).card with h | h
  · rw [if_neg (by omega), if_pos h]
  · rw [if_pos h, if_neg (by omega)]

/-- C5: for every level definition, `total_patterns` is the cardinality of
the set union of its file and directory patterns (duplicate declarations
collapse), and `coverage_percent` is the number of distinct satisfied
patterns divided by `total_patterns` times 100, or 0 when the level declares
zero patterns. -/
theorem claim_C5_coverage_formula (fs : FS) (stat : String → Option StatInfo) (lvl : Nat)
    (lc : LevelConfig) :
    (scan_level fs stat lvl lc).total_patterns =
      ((lc.file_patterns ++ lc.directory_patterns).toFinset).card ∧
    (scan_level fs stat lvl lc).coverage_percent =
      (if ((lc.file_patterns ++ lc.directory_patterns).toFinset).card = 0 then 0
       else ((satisfied_patterns fs lc).card : ℚ) /
         (((lc.file_patterns ++ lc.directory_patterns).toFinset).card : ℚ) * 100) :=
  ⟨scan_level_total fs stat lvl lc, scan_level_coverage fs stat lvl lc⟩

theorem scan_level_coverage_nonneg (fs : FS) (stat : String → Option StatInfo) (lvl : Nat)
    (lc : LevelConfig) : 0 ≤ (scan_level fs stat lvl lc).coverage_percent := by
  rw [scan_level_coverage]
  split
  · exact le_refl 0
  · positivity

theorem scan_level_coverage_le_100 (fs : FS) (stat : String → Option StatInfo) (lvl : Nat)
    (lc : LevelConfig) : (scan_level fs stat lvl lc).coverage_percent ≤ 100 := by
  rw [scan_level_coverage]
  split
  · norm_num
  · rename_i h
    have hcard : (satisfied_patterns fs lc).card ≤
        ((lc.file_patterns ++ lc.directory_patterns).toFinset).card :=
      Finset.card_filter_le _ _
    have hpos : (0 : ℚ) < (((lc.file_patterns ++ lc.directory_patterns).toFinset).card : ℚ) := by
      exact_mod_cast Nat.pos_of_ne_zero h
    calc ((satisfied_patterns fs lc).card : ℚ) /
          (((lc.file_patterns ++ lc.directory_patterns).toFinset).card : ℚ) * 100
        ≤ 1 * 100 := by
          apply mul_le_mul_of_nonneg_right _ (by norm_num)
          rw [div_le_one hpos]
          exact_mod_cast hcard
      _ = 100 := one_mul 100

/-- C9: for a fixed rule table and level, if every pattern satisfied in the
first snapshot stays satisfied in the second, the level's coverage does not
decrease. -/
theorem claim_C9_coverage_monotone (fs1 fs2 : FS)
    (stat1 stat2 : String → Option StatInfo) (lvl : Nat) (lc : LevelConfig)
    (h : ∀ p ∈ lc.file_patterns ++ lc.directory_patterns,
      pattern_satisfied fs1 lc p = true → pattern_satisfied fs2 lc p = true) :
    (scan_level fs1 stat1 lvl lc).coverage_percent ≤
      (scan_level fs2 stat2 lvl lc).coverage_percent := by
  rw [scan_level_coverage, scan_level_coverage]
  split
  · exact le_refl 0
  · rename_i hcard
    have hsub : satisfied_patterns fs1 lc ⊆ satisfied_patterns fs2 lc := by
      intro p hp
      simp only [satisfied_patterns, Finset.mem_filter] at hp ⊢
      exact ⟨hp.1, h p (List.mem_toFinset.mp hp.1) hp.2⟩
    have hle : ((satisfied_patterns fs1 lc).card : ℚ) ≤ ((satisfied_patterns fs2 lc).card : ℚ) := by
      exact_mod_cast Finset.card_le_card hsub
    have hpos : (0 : ℚ) < (((lc.file_patterns ++ lc.directory_patterns).toFinset).card : ℚ) := by
      exact_mod_cast Nat.pos_of_ne_zero hcard
    gcongr

/-- C9 witness: growing an empty repository to one containing `CLAUDE.md`
does not decrease level 1's coverage. -/
theorem claim_C9_coverage_monotone_witness :
    (scan_level fs_empty (stat_of fs_empty) 1 LEVEL_1_PATTERNS).coverage_percent ≤
      (scan_level fs_claude_only (stat_of fs_claude_only) 1 LEVEL_1_PATTERNS).coverage_percent :=
  claim_C9_coverage_monotone fs_empty fs_claude_only (stat_of fs_empty)
    (stat_of fs_claude_only) 1 LEVEL_1_PATTERNS (by decide)

/-! ## The gating loop -/

theorem advance_ge (thr : Nat → ℚ) (d : List (Nat × LevelScore)) :
    ∀ (k c : Nat), c ≤ advance_levels thr d (List.range' (c + 1) k) c := by
  intro k
  induction k with
  | zero => intro c; simp [advance_levels]
  | succ k ih =>
    intro c
    rw [List.range'_succ]
    simp only [advance_levels]
    split
    · split
      · exact le_trans (Nat.le_succ c) (ih (c + 1))
      · exact le_refl c
    · exact le_refl c

theorem advance_le (thr : Nat → ℚ) (d : List (Nat × LevelScore)) :
    ∀ (k c : Nat), advance_levels thr d (List.range' (c + 1) k) c ≤ c + k := by
  intro k
  induction k with
  | zero => intro c; simp [advance_levels]
  | succ k ih =>
    intro c
    rw [List.range'_succ]
    simp only [advance_levels]
    split
    · split
      · have := ih (c + 1)
        omega
      · omega
    · omega

theorem advance_sound (thr : Nat → ℚ) (d : List (Nat × LevelScore)) :
    ∀ (k c n : Nat), c < n → n ≤ advance_levels thr d (List.range' (c + 1) k) c →
      level_passes thr d n := by
  intro k
  induction k with
  | zero =>
    intro c n h1 h2
    simp [advance_levels] at h2
    omega
  | succ k ih =>
    intro c n h1 h2
    rw [List.range'_succ] at h2
    simp only [advance_levels] at h2
    split at h2
    · rename_i s hs
      split at h2
      · rename_i hth
        by_cases hn : n = c + 1
        · exact ⟨s, hn ▸ hs, hn ▸ hth⟩
        · exact ih (c + 1) n (by omega) h2
      · omega
    · omega

theorem advance_max (thr : Nat → ℚ) (d : List (Nat × LevelScore)) :
    ∀ (k c L : Nat), L ≤ c + k →
      (∀ n, c < n → n ≤ L → level_passes thr d n) →
      L ≤ advance_levels thr d (List.range' (c + 1) k) c := by
  intro k
  induction k with
  | zero =>
    intro c L hL _
    simp [advance_levels]
    omega
  | succ k ih =>
    intro c L hL hp
    rw [List.range'_succ]
    simp only [advance_levels]
    split
    · rename_i s hs
      split
      · by_cases hLc : L ≤ c
        · exact le_trans hLc (le_trans (Nat.le_succ c) (advance_ge thr d k (c + 1)))
        · exact ih (c + 1) L (by omega) (fun n h1 h2 => hp n (by omega) h2)
      · rename_i hth
        by_contra hc
        obtain ⟨s2, hs2, hle2⟩ := hp (c + 1) (by omega) (by omega)
        rw [hs] at hs2
        cases hs2
        exact hth hle2
    · rename_i hs
      by_contra hc
      obtain ⟨s2, hs2, _⟩ := hp (c + 1) (by omega) (by omega)
      rw [hs] at hs2
      exact Option.noConfusion hs2

/-- C2: once the base gate passes, the computed overall level is the largest
`L` in `[2, 8]` such that every level from 3 up to `L` passes its coverage
threshold — so a failure at level `N + 1` caps the result at `N` no matter
what higher levels cover (no skipping). -/
theorem claim_C2_gating_order (cfg : RepoConfig) (d : List (Nat × LevelScore)) (l2 : LevelScore)
    (h2 : d.lookup 2 = some l2)
    (hsub : l2.substantive_file_count ≠ 0)
    (hcore : has_core_file l2.matched_files = true) :
    (2 ≤ calculate_overall_level cfg d ∧ calculate_overall_level cfg d ≤ 8) ∧
    (∀ n, 3 ≤ n → n ≤ calculate_overall_level cfg d →
      level_passes (threshold_for cfg) d n) ∧
    (∀ L, 2 ≤ L → L ≤ 8 →
      (∀ n, 3 ≤ n → n ≤ L → level_passes (threshold_for cfg) d n) →
      L ≤ calculate_overall_level cfg d) := by
  have hunfold : calculate_overall_level cfg d =
      advance_levels (threshold_for cfg) d (List.range' 3 6) 2 := by
    simp only [calculate_overall_level, h2]
    rw [if_neg hsub, if_neg (by simp [hcore])]
  rw [hunfold]
  refine ⟨⟨advance_ge _ d 6 2, advance_le _ d 6 2⟩, ?_, ?_⟩
  · intro n h3 hn
    exact advance_sound _ d 6 2 n (by omega) hn
  · intro L hL2 hL8 hp
    exact advance_max _ d 6 2 L (by omega) (fun n h1 h2 => hp n (by omega) h2)

/-- C2 witness: concrete per-level scores passing the base gate, with levels
3 and 4 meeting the default thresholds and no level 5 defined. -/
theorem claim_C2_gating_order_witness :
    (2 ≤ calculate_overall_level default_config w_scores ∧
      calculate_overall_level default_config w_scores ≤ 8) ∧
    (∀ n, 3 ≤ n → n ≤ calculate_overall_level default_config w_scores →
      level_passes (threshold_for default_config) w_scores n) ∧
    (∀ L, 2 ≤ L → L ≤ 8 →
      (∀ n, 3 ≤ n → n ≤ L → level_passes (threshold_for default_config) w_scores n) →
      L ≤ calculate_overall_level default_config w_scores) :=
  claim_C2_gating_order default_config w_scores w_level_2 (by decide) (by decide) (by decide)

/-! ## Reachable levels under the shipped table -/

theorem calculate_overall_level_range (cfg : RepoConfig) (d : List (Nat × LevelScore))
    (h5 : d.lookup 5 = none) :
    1 ≤ calculate_overall_level cfg d ∧ calculate_overall_level cfg d ≤ 4 := by
  have hbound : 1 ≤ advance_levels (threshold_for cfg) d (List.range' 3 6) 2 ∧
      advance_levels (threshold_for cfg) d (List.range' 3 6) 2 ≤ 4 := by
    have hge : 2 ≤ advance_levels (threshold_for cfg) d (List.range' 3 6) 2 :=
      advance_ge (threshold_for cfg) d 6 2
    constructor
    · omega
    · by_contra hc
      have h5p : level_passes (threshold_for cfg) d 5 :=
        advance_sound (threshold_for cfg) d 6 2 5 (by omega)
          (show 5 ≤ advance_levels (threshold_for cfg) d (List.range' 3 6) 2 by omega)
      obtain ⟨s, hs, _⟩ := h5p
      rw [h5] at hs
      exact Option.noConfusion hs
  unfold calculate_overall_level
  split
  · omega
  · split
    · omega
    · split
      · omega
      · exact hbound

theorem scan_levels_lookup_five (fs : FS) :
    (LEVELS_list.map (fun p => (p.1, scan_level fs (stat_of fs) p.1 p.2))).lookup 5 = none := by
  simp [LEVELS_list, List.lookup]

/-- C10: with the shipped rule table, which defines ordinals 1 through 4
only, the computed overall level always lies in `{1, 2, 3, 4}`: the gating
loop stops at the first ordinal (5) for which no `LevelScore` exists, so the
documented levels up to 8 are unreachable. -/
theorem claim_C10_shipped_level_range (fs : FS) (commit : String → Nat) (cfg : RepoConfig) :
    1 ≤ (scan fs commit cfg).overall_level ∧ (scan fs commit cfg).overall_level ≤ 4 := by
  have h : (scan fs commit cfg).overall_level =
      calculate_overall_level cfg
        (LEVELS_list.map (fun p => (p.1, scan_level fs (stat_of fs) p.1 p.2))) := by
    simp only [scan]
  rw [h]
  exact calculate_overall_level_range cfg _ (scan_levels_lookup_five fs)

/-! ## The core-file gate on a repository holding only `CLAUDE.md` -/

/-- C1 (divergence): a repository whose only content is a 250-byte
`CLAUDE.md` — a core instruction file well above the substantive
threshold — is scored `overall_level = 1` with `has_any_ai_files = false`:
`_calculate_overall_level` looks for core AI files among the matches of
level 2, but the shipped table declares `CLAUDE.md` as a level 1 pattern and
no level 2 pattern matches it, contradicting the scanner's own docstring and
the repository's tests (`test_claude_md_returns_level_2`,
`test_has_any_ai_files_with_claude_md`). -/
theorem claim_C1_core_gate_divergence :
    (scan fs_claude_only no_commits default_config).overall_level = 1 ∧
    (scan fs_claude_only no_commits default_config).has_any_ai_files = false := by
  decide

/-! ## Cross-reference extraction on a markdown link -/

/-- C7: an instruction file whose single line is `[x](./ARCHITECTURE.md)`
yields exactly one `CrossReference` (deduplication by normalized target and
line number), resolved when `ARCHITECTURE.md` exists at the repository root
and unresolved when the target exists neither at the root nor under the
documentation prefixes. -/
theorem claim_C7_cross_ref_resolution :
    extract_references fs_arch_present "CLAUDE.md" c7_line =
      [⟨"CLAUDE.md", "ARCHITECTURE.md", "markdown_link", 1, true⟩] ∧
    extract_references fs_empty "CLAUDE.md" c7_line =
      [⟨"CLAUDE.md", "ARCHITECTURE.md", "markdown_link", 1, false⟩] := by
  decide

/-! ## Stat failures during level scanning -/

theorem create_file_match_path (stat : String → Option StatInfo) (m p : String) (lvl : Nat) :
    (create_file_match stat m p lvl).path = m := by
  unfold create_file_match
  split <;> rfl

theorem scan_level_matched_files (fs : FS) (stat : String → Option StatInfo) (lvl : Nat)
    (lc : LevelConfig) :
    (scan_level fs stat lvl lc).matched_files =
      lc.file_patterns.flatMap
        (fun p => (find_matches fs p).map (fun m => create_file_match stat m p lvl)) := by
  show (lc.file_patterns.foldl (file_pattern_step fs stat lvl) ([], ∅)).1 = _
  rw [file_fold_fst]
  simp

/-- C3 (counterexample): with a stat oracle that fails on every path — the
file vanished between discovery and stat — the discovered `CLAUDE.md` is
still present among the scan's matched files, so the path is not skipped and
need not exist on disk at stat time. -/
theorem claim_C3_stat_skip_cex :
    ((scan_level fs_claude_only stat_fail 1 LEVEL_1_PATTERNS).matched_files.map
        (fun f => f.path)).contains "CLAUDE.md" = true ∧
    stat_fail "CLAUDE.md" = none := by
  decide

/-- C3 (amended): when the stat of a discovered matched file fails, the
match is retained rather than skipped — it is recorded with `size_bytes = 0`
and is never substantive — and the set of matched paths is exactly what
discovery produced, independent of stat outcomes. -/
theorem claim_C3_stat_failure_retained (fs : FS) (stat : String → Option StatInfo)
    (lvl : Nat) (lc : LevelConfig) (f : FileMatch)
    (hf : f ∈ (scan_level fs stat lvl lc).matched_files)
    (hfail : stat f.path = none) :
    f.size_bytes = 0 ∧ f.is_substantive = false ∧
    (scan_level fs stat lvl lc).matched_files.map (fun g => g.path) =
      (scan_level fs (stat_of fs) lvl lc).matched_files.map (fun g => g.path) := by
  rw [scan_level_matched_files] at hf
  obtain ⟨p, _, hm⟩ := List.mem_flatMap.mp hf
  obtain ⟨m, _, heq⟩ := List.mem_map.mp hm
  have hpath : f.path = m := by rw [← heq, create_file_match_path]
  rw [hpath] at hfail
  have hsize : f.size_bytes = 0 := by
    rw [← heq]
    unfold create_file_match
    rw [hfail]
  refine ⟨hsize, ?_, ?_⟩
  · simp [FileMatch.is_substantive, hsize]
  · rw [scan_level_matched_files, scan_level_matched_files]
    have hmp : ∀ (st : String → Option StatInfo) (l : List String),
        (l.flatMap
          (fun q => (find_matches fs q).map (fun m2 => create_file_match st m2 q lvl))).map
            (fun g => g.path) =
          l.flatMap (fun q => find_matches fs q) := by
      intro st l
      induction l with
      | nil => rfl
      | cons q t ih =>
        simp only [List.flatMap_cons, List.map_append, ih, List.map_map]
        congr 1
        have hfun : ((fun g : FileMatch => g.path) ∘ (fun m2 => create_file_match st m2 q lvl)) =
            fun m2 : String => m2 := by
          funext m2
          simp [Function.comp, create_file_match_path]
        rw [hfun]
        simp
    rw [hmp, hmp]

/-- C3 witness: on the repository holding only `CLAUDE.md`, with a stat that
fails on every path, the retained match has size 0, is not substantive, and
the matched paths agree with the ones of a successful stat. -/
theorem claim_C3_stat_failure_retained_witness :
    (⟨"CLAUDE.md", "CLAUDE.md", 1, 0, none⟩ : FileMatch).size_bytes = 0 ∧
    (⟨"CLAUDE.md", "CLAUDE.md", 1, 0, none⟩ : FileMatch).is_substantive = false ∧
    (scan_level fs_claude_only stat_fail 1 LEVEL_1_PATTERNS).matched_files.map
        (fun g => g.path) =
      (scan_level fs_claude_only (stat_of fs_claude_only) 1 LEVEL_1_PATTERNS).matched_files.map
        (fun g => g.path) :=
  claim_C3_stat_failure_retained fs_claude_only stat_fail 1 LEVEL_1_PATTERNS
    ⟨"CLAUDE.md", "CLAUDE.md", 1, 0, none⟩ (by decide) rfl

/-! ## The word-count substance component of the quality score -/

/-- C4 (counterexample): on a content of exactly 200 words with no other
quality indicators the quality score is 1.0, not the 2.0 the claim requires
at the high threshold — the code uses a strict comparison
(`len(words) > 200`). -/
theorem claim_C4_substance_cex :
    word_count c4_content = 200 ∧
    (evaluate_quality c4_content 0).quality_score = 1 ∧
    ¬ (evaluate_quality c4_content 0).quality_score = 2 := by
  have hs : count_sections c4_content = 0 := by decide
  have hp : count_paths c4_content = 0 := by decide
  have hc : count_commands c4_content = 0 := by decide
  have hk : count_constraints c4_content = 0 := by decide
  have hw : word_count c4_content = 200 := by decide
  have hq : (evaluate_quality c4_content 0).quality_score = 1 := by
    simp only [evaluate_quality, hs, hp, hc, hk, hw]
    norm_num [substance_bonus, commit_bonus]
  refine ⟨hw, hq, ?_⟩
  rw [hq]
  norm_num

/-- C4 (amended): the substance component is 0 points at or below the low
threshold (50 words), 1.0 point strictly above 50 and at most 200, and 2.0
points strictly above the high threshold (200 words); the total quality
score is capped at 10.0. -/
theorem claim_C4_substance_amended :
    (∀ w, w ≤ 50 → substance_bonus w = 0) ∧
    (∀ w, 50 < w → w ≤ 200 → substance_bonus w = 1) ∧
    (∀ w, 200 < w → substance_bonus w = 2) ∧
    (∀ content cc, (evaluate_quality content cc).quality_score ≤ 10) := by
  refine ⟨?_, ?_, ?_, ?_⟩
  · intro w h
    unfold substance_bonus
    rw [if_neg (by omega), if_neg (by omega)]
  · intro w h1 h2
    unfold substance_bonus
    rw [if_neg (by omega), if_pos (by omega)]
  · intro w h
    unfold substance_bonus
    rw [if_pos (by omega)]
  · intro content cc
    simp only [evaluate_quality]
    exact min_le_right _ 10

/-! ## Bounds on the overall score and the bonus -/

theorem LEVELS_get_weight_nonneg (n : Nat) (c : LevelConfig) (h : LEVELS_get n = some c) :
    0 ≤ c.weight := by
  unfold LEVELS_get LEVELS_list at h
  simp only [List.lookup] at h
  repeat' split at h
  all_goals first
    | exact Option.noConfusion h
    | (cases h
       norm_num [LEVEL_1_PATTERNS, LEVEL_2_PATTERNS, LEVEL_3_PATTERNS, LEVEL_4_PATTERNS])

theorem score_contribution_nonneg (config : LevelConfig) (s : LevelScore)
    (hw : 0 ≤ config.weight) (hc : 0 ≤ s.coverage_percent) :
    0 ≤ score_contribution config s := by
  unfold score_contribution
  split
  · have hratio : (0 : ℚ) ≤
        (if s.file_count > 0 then
          (s.substantive_file_count : ℚ) / (max s.file_count 1 : ℚ) else 0) := by
      split
      · positivity
      · exact le_refl 0
    apply mul_nonneg (mul_nonneg (mul_nonneg (by positivity) hratio) hw)
    norm_num
  · exact le_refl 0

theorem score_fold_fst_nonneg :
    ∀ (items : List (Nat × LevelScore)) (acc : ℚ × ℚ),
      (∀ it ∈ items, 0 ≤ it.2.coverage_percent) → 0 ≤ acc.1 →
      0 ≤ (items.foldl score_step acc).1 := by
  intro items
  induction items with
  | nil => intro acc _ h; simpa using h
  | cons a t ih =>
    intro acc hcov h
    simp only [List.foldl_cons]
    apply ih _ (fun it hit => hcov it (List.mem_cons_of_mem a hit))
    unfold score_step
    split
    · exact h
    · rename_i config hcfg
      have hcontrib := score_contribution_nonneg config a.2
        (LEVELS_get_weight_nonneg a.1 config hcfg) (hcov a (List.mem_cons_self a t))
      show 0 ≤ acc.1 + score_contribution config a.2
      linarith

theorem calculate_overall_score_bounds (items : List (Nat × LevelScore))
    (hcov : ∀ it ∈ items, 0 ≤ it.2.coverage_percent) :
    0 ≤ calculate_overall_score items ∧ calculate_overall_score items ≤ 100 := by
  simp only [calculate_overall_score]
  split
  · rename_i hpos
    refine ⟨le_min (by norm_num) ?_, min_le_left _ _⟩
    have h1 := score_fold_fst_nonneg items (0, 0) hcov (le_refl 0)
    exact mul_nonneg (div_nonneg h1 (le_of_lt hpos)) (by norm_num)
  · exact ⟨le_refl 0, by norm_num⟩

theorem substance_bonus_nonneg (w : Nat) : 0 ≤ substance_bonus w := by
  unfold substance_bonus
  split
  · norm_num
  · split <;> norm_num

theorem commit_bonus_nonneg (cc : Nat) : 0 ≤ commit_bonus cc := by
  unfold commit_bonus
  split
  · norm_num
  · split <;> norm_num

theorem evaluate_quality_bounds (content : String) (cc : Nat) :
    0 ≤ (evaluate_quality content cc).quality_score ∧
    (evaluate_quality content cc).quality_score ≤ 10 := by
  simp only [evaluate_quality]
  refine ⟨le_min ?_ (by norm_num), min_le_right _ _⟩
  have h1 : (0 : ℚ) ≤ min ((count_sections content : ℚ) / 5) 2 :=
    le_min (by positivity) (by norm_num)
  have h2 : (0 : ℚ) ≤ min ((count_paths content : ℚ) / 3) 2 :=
    le_min (by positivity) (by norm_num)
  have h3 : (0 : ℚ) ≤ min ((count_commands content : ℚ) / 3) 2 :=
    le_min (by positivity) (by norm_num)
  have h4 : (0 : ℚ) ≤ min ((count_constraints content : ℚ) / 2) 2 :=
    le_min (by positivity) (by norm_num)
  have h5 := substance_bonus_nonneg (word_count content)
  have h6 := commit_bonus_nonneg cc
  linarith

theorem dict_set_mem (k : String) (v : ContentQuality) :
    ∀ (l : List (String × ContentQuality)) (x : String × ContentQuality),
      x ∈ dict_set l k v → x ∈ l ∨ x = (k, v) := by
  intro l
  induction l with
  | nil =>
    intro x hx
    simp only [dict_set, List.mem_singleton] at hx
    exact Or.inr hx
  | cons a t ih =>
    obtain ⟨k0, v0⟩ := a
    intro x hx
    simp only [dict_set] at hx
    split at hx
    · rename_i heq
      rcases List.mem_cons.mp hx with h | h
      · exact Or.inr (by rw [h, heq])
      · exact Or.inl (List.mem_cons_of_mem _ h)
    · rcases List.mem_cons.mp hx with h | h
      · exact Or.inl (by rw [h]; exact List.mem_cons_self _ t)
      · rcases ih x h with h2 | h2
        · exact Or.inl (List.mem_cons_of_mem _ h2)
        · exact Or.inr h2

theorem xref_fold_quality_bounds (fs : FS) (commit : String → Nat) :
    ∀ (sources : List String) (acc : List CrossReference × List (String × ContentQuality)),
      (∀ kv ∈ acc.2, 0 ≤ kv.2.quality_score ∧ kv.2.quality_score ≤ 10) →
      ∀ kv ∈ (sources.foldl (xref_step fs commit) acc).2,
        0 ≤ kv.2.quality_score ∧ kv.2.quality_score ≤ 10 := by
  intro sources
  induction sources with
  | nil => intro acc h kv hkv; exact h kv hkv
  | cons s t ih =>
    intro acc h kv hkv
    simp only [List.foldl_cons] at hkv
    apply ih (xref_step fs commit acc s) _ kv hkv
    intro kv2 hkv2
    unfold xref_step at hkv2
    split at hkv2
    · exact h kv2 hkv2
    · rename_i content hread
      split at hkv2
      · exact h kv2 hkv2
      · rcases dict_set_mem s _ acc.2 kv2 hkv2 with h2 | h2
        · exact h kv2 h2
        · rw [h2]
          exact evaluate_quality_bounds content (commit s)

theorem cross_ref_bonus_bounds (refs : List CrossReference)
    (quality : List (String × ContentQuality))
    (hq : ∀ kv ∈ quality, 0 ≤ kv.2.quality_score ∧ kv.2.quality_score ≤ 10) :
    0 ≤ calculate_cross_ref_bonus refs quality ∧
    calculate_cross_ref_bonus refs quality ≤ 10 := by
  unfold calculate_cross_ref_bonus
  refine ⟨le_min ?_ (by norm_num), min_le_right _ _⟩
  apply add_nonneg
  · split
    · exact le_refl 0
    · apply add_nonneg (le_min (by positivity) (by norm_num))
      apply mul_nonneg _ (by norm_num)
      positivity
  · split
    · exact le_refl 0
    · apply div_nonneg _ (by norm_num)
      apply div_nonneg _ (by positivity)
      apply List.sum_nonneg
      intro x hx
      obtain ⟨kv, hkv, rfl⟩ := List.mem_map.mp hx
      exact (hq kv hkv).1

theorem scan_xref_bonus_bounds (fs : FS) (commit : String → Nat) :
    0 ≤ (scan_cross_references fs commit).bonus_points ∧
    (scan_cross_references fs commit).bonus_points ≤ 10 := by
  have h : (scan_cross_references fs commit).bonus_points =
      calculate_cross_ref_bonus
        ((find_instruction_files fs).foldl (xref_step fs commit) ([], [])).1
        ((find_instruction_files fs).foldl (xref_step fs commit) ([], [])).2 := by
    simp only [scan_cross_references]
  rw [h]
  exact cross_ref_bonus_bounds _ _
    (xref_fold_quality_bounds fs commit (find_instruction_files fs) ([], [])
      (by intro kv hkv; simp at hkv))

/-- C6: for every scan, the final overall score lies in `[0, 100]` even after
the cross-reference/quality bonus (itself in `[0, 10]`) is added, and every
level's coverage percentage lies in `[0, 100]`. -/
theorem claim_C6_score_bounds (fs : FS) (commit : String → Nat) (cfg : RepoConfig) :
    0 ≤ (scan fs commit cfg).overall_score ∧ (scan fs commit cfg).overall_score ≤ 100 ∧
    0 ≤ (scan fs commit cfg).cross_references.bonus_points ∧
    (scan fs commit cfg).cross_references.bonus_points ≤ 10 ∧
    ∀ p ∈ (scan fs commit cfg).level_scores,
      0 ≤ p.2.coverage_percent ∧ p.2.coverage_percent ≤ 100 := by
  have hxrefs : (scan fs commit cfg).cross_references = scan_cross_references fs commit := by
    simp only [scan]
  have hscore : (scan fs commit cfg).overall_score =
      min 100 (calculate_overall_score
          (LEVELS_list.map (fun p => (p.1, scan_level fs (stat_of fs) p.1 p.2))) +
        (scan_cross_references fs commit).bonus_points) := by
    simp only [scan]
  have hlvls : (scan fs commit cfg).level_scores =
      LEVELS_list.map (fun p => (p.1, scan_level fs (stat_of fs) p.1 p.2)) := by
    simp only [scan]
  have hcov : ∀ p ∈ LEVELS_list.map (fun p => (p.1, scan_level fs (stat_of fs) p.1 p.2)),
      0 ≤ p.2.coverage_percent ∧ p.2.coverage_percent ≤ 100 := by
    intro p hp
    obtain ⟨q, _, rfl⟩ := List.mem_map.mp hp
    exact ⟨scan_level_coverage_nonneg fs (stat_of fs) q.1 q.2,
      scan_level_coverage_le_100 fs (stat_of fs) q.1 q.2⟩
  have hbase := calculate_overall_score_bounds _ (fun it hit => (hcov it hit).1)
  have hbonus := scan_xref_bonus_bounds fs commit
  rw [hscore, hxrefs, hlvls]
  exact ⟨le_min (by norm_num) (by linarith [hbase.1, hbonus.1]), min_le_left _ _,
    hbonus.1, hbonus.2, hcov⟩

/-! ## The empty repository -/

theorem find_matches_go_no_files (dirs : List String) (contents : String → Option String) :
    ∀ (parts base : List String), find_matches_go ⟨[], dirs, contents⟩ base parts = [] := by
  intro parts
  induction parts with
  | nil => intro base; rfl
  | cons part rest ih =>
    intro base
    unfold find_matches_go
    split
    · unfold glob_search
      split
      · rfl
      · rfl
    · simp only []
      split
      · exact ih _
      · rfl

theorem find_matches_no_files (dirs : List String) (contents : String → Option String)
    (p : String) : find_matches ⟨[], dirs, contents⟩ p = [] := by
  unfold find_matches
  split
  · exact find_matches_go_no_files dirs contents _ []
  · split
    · rename_i h
      simp [is_file] at h
    · rfl

theorem scan_level_no_files_matched (dirs : List String) (contents : String → Option String)
    (stat : String → Option StatInfo) (lvl : Nat) (lc : LevelConfig) :
    (scan_level ⟨[], dirs, contents⟩ stat lvl lc).matched_files = [] := by
  rw [scan_level_matched_files]
  generalize lc.file_patterns = l
  induction l with
  | nil => rfl
  | cons a t ih => simp [List.flatMap_cons, find_matches_no_files, ih]

theorem calculate_overall_level_no_substantive (cfg : RepoConfig)
    (d : List (Nat × LevelScore)) (l2 : LevelScore) (h2 : d.lookup 2 = some l2)
    (hsub : l2.substantive_file_count = 0) : calculate_overall_level cfg d = 1 := by
  unfold calculate_overall_level
  simp only [h2]
  rw [if_pos hsub]

theorem score_contribution_no_files (config : LevelConfig) (s : LevelScore)
    (h : s.file_count = 0) : score_contribution config s = 0 := by
  unfold score_contribution
  split
  · rw [if_neg (by omega)]
    ring
  · rfl

theorem score_fold_fst_no_files :
    ∀ (items : List (Nat × LevelScore)) (acc : ℚ × ℚ),
      (∀ it ∈ items, it.2.file_count = 0) → (items.foldl score_step acc).1 = acc.1 := by
  intro items
  induction items with
  | nil => intro acc _; rfl
  | cons a t ih =>
    intro acc h
    simp only [List.foldl_cons]
    rw [ih _ (fun it hit => h it (List.mem_cons_of_mem a hit))]
    unfold score_step
    split
    · rfl
    · show acc.1 + score_contribution _ a.2 = acc.1
      rw [score_contribution_no_files _ _ (h a (List.mem_cons_self a t))]
      ring

theorem find_instruction_files_no_files (dirs : List String)
    (contents : String → Option String) :
    find_instruction_files ⟨[], dirs, contents⟩ = [] := by
  unfold find_instruction_files
  simp [is_file, INSTRUCTION_FILES, scoped_instruction_patterns]

theorem scan_xref_bonus_no_files (dirs : List String) (contents : String → Option String)
    (commit : String → Nat) :
    (scan_cross_references ⟨[], dirs, contents⟩ commit).bonus_points = 0 := by
  have h : (scan_cross_references ⟨[], dirs, contents⟩ commit).bonus_points =
      calculate_cross_ref_bonus
        ((find_instruction_files ⟨[], dirs, contents⟩).foldl
          (xref_step ⟨[], dirs, contents⟩ commit) ([], [])).1
        ((find_instruction_files ⟨[], dirs, contents⟩).foldl
          (xref_step ⟨[], dirs, contents⟩ commit) ([], [])).2 := by
    simp only [scan_cross_references]
  rw [h, find_instruction_files_no_files]
  simp only [List.foldl_nil]
  unfold calculate_cross_ref_bonus
  norm_num

/-- C8: scanning a repository containing zero files yields the lowest
defined level (1) and an overall score of exactly 0. -/
theorem claim_C8_empty_repo (dirs : List String) (contents : String → Option String)
    (commit : String → Nat) (cfg : RepoConfig) :
    (scan ⟨[], dirs, contents⟩ commit cfg).overall_level = 1 ∧
    (scan ⟨[], dirs, contents⟩ commit cfg).overall_score = 0 := by
  constructor
  · have h : (scan ⟨[], dirs, contents⟩ commit cfg).overall_level =
        calculate_overall_level cfg
          (LEVELS_list.map (fun p =>
            (p.1, scan_level ⟨[], dirs, contents⟩ (stat_of ⟨[], dirs, contents⟩) p.1 p.2))) := by
      simp only [scan]
    rw [h]
    apply calculate_overall_level_no_substantive cfg _
      (scan_level ⟨[], dirs, contents⟩ (stat_of ⟨[], dirs, contents⟩) 2 LEVEL_2_PATTERNS)
    · simp [LEVELS_list, List.lookup]
    · unfold LevelScore.substantive_file_count
      rw [scan_level_no_files_matched]
      rfl
  · have h : (scan ⟨[], dirs, contents⟩ commit cfg).overall_score =
        min 100 (calculate_overall_score
            (LEVELS_list.map (fun p =>
              (p.1, scan_level ⟨[], dirs, contents⟩ (stat_of ⟨[], dirs, contents⟩) p.1 p.2))) +
          (scan_cross_references ⟨[], dirs, contents⟩ commit).bonus_points) := by
      simp only [scan]
    rw [h, scan_xref_bonus_no_files]
    have hbase : calculate_overall_score
        (LEVELS_list.map (fun p =>
          (p.1, scan_level ⟨[], dirs, contents⟩ (stat_of ⟨[], dirs, contents⟩) p.1 p.2))) = 0 := by
      simp only [calculate_overall_score]
      have hfold := score_fold_fst_no_files
        (LEVELS_list.map (fun p =>
          (p.1, scan_level ⟨[], dirs, contents⟩ (stat_of ⟨[], dirs, contents⟩) p.1 p.2)))
        (0, 0)
        (by
          intro it hit
          obtain ⟨q, _, rfl⟩ := List.mem_map.mp hit
          unfold LevelScore.file_count
          rw [scan_level_no_files_matched]
          rfl)
      split
      · rw [hfold]
        norm_num
      · rfl
    rw [hbase]
    norm_num
